import Mathlib

/-!
Shallow embedding of the printersAPI uploader scripts
(`flask_dbf_uploader.py`, `ordprod_inventory_uploader.py`,
`corrected_schema_uploader.py`) and proofs about the properties their
specification states.

Python scalar values carried in raw DBF records are modelled as
`Option String` (`none` is Python `None`; any other value is its `str()`
rendering).  Values placed into mapped payloads are modelled by `PyVal`.
Python `float` results are modelled as exact decimals (`Dec`), whose
denoted value is a rational; the string-to-number parsers model Python
`float(...)` / `int(...)` on the optionally signed decimal literals that
cleaned DBF fields contain.
-/

/-- Exact decimal number of value `num / 10 ^ exp`, the model of a Python
`float` parsed from a decimal literal.  All float operations the uploaders
perform (compare with zero, truncate to int, negate) are exact on decimals,
so no floating-point rounding needs to be modelled. -/
structure Dec where
  num : Int
  exp : Nat
deriving DecidableEq, Repr

/-- The rational value denoted by a decimal. -/
def Dec.value (d : Dec) : ℚ := (d.num : ℚ) / (10 : ℚ) ^ d.exp

/-- Decides `0 < d.value` (the denominator is positive). -/
def Dec.isPos (d : Dec) : Bool := 0 < d.num

/-- Decides `d.value = 0`. -/
def Dec.isZero (d : Dec) : Bool := d.num = 0

/-- Negation of a decimal. -/
def Dec.neg (d : Dec) : Dec := ⟨-d.num, d.exp⟩

/-- Scalar value appearing in a mapped payload: a Python `str`, `float`
(modelled as an exact decimal) or `int`. -/
inductive PyVal where
  | vStr (s : String)
  | vFloat (d : Dec)
  | vInt (n : Int)
deriving DecidableEq, Repr

/-- ASCII digit test, on the character's code point. -/
def isAsciiDigit (c : Char) : Bool := 48 ≤ c.toNat && c.toNat ≤ 57

/-- Model of Python `str.lower()`. -/
def pyLower (s : String) : String := ⟨s.data.map Char.toLower⟩

/-- Model of Python `str.strip()`: drop whitespace from both ends. -/
def pyStrip (s : String) : String :=
  ⟨((s.data.dropWhile Char.isWhitespace).reverse.dropWhile Char.isWhitespace).reverse⟩

/-- Model of Python `c in s` for a single character. -/
def pyContains (s : String) (c : Char) : Bool := s.data.contains c

/-- Model of Python `s.split(sep)` for a one-character separator. -/
def pySplit (s : String) (c : Char) : List String :=
  (s.data.splitOn c).map (fun l => (⟨l⟩ : String))

/-- Model of Python `len(s)`. -/
def pyLen (s : String) : Nat := s.data.length

/-- Model of Python `s[:n]`. -/
def pyTake (s : String) (n : Nat) : String := ⟨s.data.take n⟩

/-- Model of Python `str.isdigit()` (ASCII): nonempty and all digits. -/
def pyIsdigit (s : String) : Bool := !s.data.isEmpty && s.data.all isAsciiDigit

/-- Numeric value of an ASCII digit character. -/
def digitVal? (c : Char) : Option Nat :=
  if isAsciiDigit c then some (c.toNat - 48) else none

/-- Accumulating base-10 parse of a digit string. -/
def natOfDigitsAux : List Char → Nat → Option Nat
  | [], acc => some acc
  | c :: cs, acc =>
    match digitVal? c with
    | some d => natOfDigitsAux cs (10 * acc + d)
    | none => none

/-- Base-10 parse of a nonempty digit string. -/
def natOfDigits? : List Char → Option Nat
  | [] => none
  | c :: cs => natOfDigitsAux (c :: cs) 0

/-- Parse an unsigned decimal literal (`12`, `12.5`, `.5`, `12.`) as an
exact decimal, as Python `float(...)` does on such strings. -/
def parseUnsigned (cs : List Char) : Option Dec :=
  let ip := cs.takeWhile (fun c => c ≠ '.')
  let rest := cs.dropWhile (fun c => c ≠ '.')
  if rest.isEmpty then (natOfDigits? ip).map (fun (n : Nat) => (⟨(n : Int), 0⟩ : Dec))
  else
    let frac := rest.tail
    if frac.contains '.' then none
    else if ip.isEmpty then
      if frac.isEmpty then none
      else (natOfDigits? frac).map (fun (n : Nat) => (⟨(n : Int), frac.length⟩ : Dec))
    else if frac.isEmpty then
      (natOfDigits? ip).map (fun (n : Nat) => (⟨(n : Int), 0⟩ : Dec))
    else do
      let ni ← natOfDigits? ip
      let nf ← natOfDigits? frac
      pure ⟨(ni : Int) * (10 : Int) ^ frac.length + (nf : Int), frac.length⟩

/-- Model of Python `float(s)` on an optionally signed decimal literal;
`none` models the `ValueError` raised on anything unparsable. -/
def pyFloat? (s : String) : Option Dec :=
  match s.data with
  | [] => none
  | c :: cs =>
    if c = '+' then parseUnsigned cs
    else if c = '-' then (parseUnsigned cs).map Dec.neg
    else parseUnsigned (c :: cs)

/-- Model of Python `int(s)` on an optionally signed digit string;
`none` models the `ValueError` raised on anything unparsable. -/
def pyInt? (s : String) : Option Int :=
  match s.data with
  | [] => none
  | c :: cs =>
    if c = '+' then (natOfDigits? cs).map (fun (n : Nat) => (n : Int))
    else if c = '-' then (natOfDigits? cs).map (fun (n : Nat) => -(n : Int))
    else (natOfDigits? (c :: cs)).map (fun (n : Nat) => (n : Int))

/-- Model of Python `int(x)` for a float argument: truncation toward zero
(`Int.tdiv` is T-division, exactly Python `int()` on a float). -/
def pyTrunc (d : Dec) : Int := d.num.tdiv ((10 : Int) ^ d.exp)

/-- A raw DBF record: ordered field-name/value pairs, values as produced by
the reader (`none` is Python `None`). -/
abbrev RawRecord := List (String × Option String)

/-- A record whose values have been cleaned to strings. -/
abbrev StrRecord := List (String × String)

/-- Model of Python `record.get(key, default)` on a string-valued dict. -/
def getS (r : StrRecord) (k d : String) : String := (r.lookup k).getD d

/-- Model of Python `record.get(key, default)` on a raw record. -/
def getRaw (r : RawRecord) (k : String) (d : Option String) : Option String :=
  (r.lookup k).getD d

namespace FlaskDbfUploader

/-!
Embedding of `src/flask_dbf_uploader.py` (class `OrdProdInventoryUploader`).
`src/ordprod_inventory_uploader.py` duplicates `clean_value`,
`map_ordprod_record_to_inventory_code` and `send_inventory_code_to_api`
verbatim; those shared definitions live here and are reused by the
`OrdprodInventoryUploader` namespace below.
-/

/-- Embeds `clean_value` (flask_dbf_uploader.py lines 101-105): `None` and
the case-insensitive tokens `nan`/`none`/``/`null` become the empty string;
anything else is stringified and stripped. -/
def clean_value (v : Option String) : String :=
  match v with
  | none => ""
  | some s =>
    if pyLower s ∈ (["nan", "none", "", "null"] : List String) then "" else pyStrip s

/-- Embeds `is_new_record` (lines 79-87): parse `NO_ORDP` as an int and
compare it to the stored high-water mark; an unparsable value is logged and
reported as not new. -/
def is_new_record (last_processed_ordp : Int) (no_ordp : String) : Bool :=
  match pyInt? no_ordp with
  | some current_ordp => current_ordp > last_processed_ordp
  | none => false

/-- Embeds the expression `float(cleaned_record.get(k, d) or d)` used by the
field mapping: a missing key or an empty cleaned value falls back to the
numeric default `d`; otherwise the string is parsed as a float (`none`
models the `ValueError` path that aborts the mapping). -/
def floatOr (cleaned : StrRecord) (k : String) (d : Dec) : Option Dec :=
  match cleaned.lookup k with
  | none => some d
  | some v => if v = "" then some d else pyFloat? v

/-- Fields exempted from pruning in `map_ordprod_record_to_inventory_code`
(line 137). -/
def keepNumericFields : List String :=
  ["can_copr", "costo", "tip_copr", "trans", "partresp", "partop", "fcdres"]

/-- Python `v in [None, '', 0]`: the empty string, or a numeric zero
(`0 == 0.0` in Python). `None` cannot occur among the built values. -/
def isEmptyOrZero : PyVal → Bool
  | .vStr s => s = ""
  | .vFloat d => d.isZero
  | .vInt n => n = 0

/-- Embeds `map_ordprod_record_to_inventory_code` (lines 107-144): clean
every value, build the inventory-code payload, then prune empty/zero fields
except the designated numeric keep-list.  `today` stands for
`datetime.now().strftime('%Y-%m-%d')`; a `none` result models the
exception path (an unparsable numeric field). -/
def map_ordprod_record_to_inventory_code (today : String) (record : RawRecord) :
    Option (List (String × PyVal)) := do
  let cleaned : StrRecord := record.map (fun kv => (kv.1, clean_value kv.2))
  let canCopr ← floatOr cleaned "CAN_COPR" ⟨0, 0⟩
  let tipCopr ← floatOr cleaned "TIP_COPR" ⟨1, 0⟩
  let costoV ← floatOr cleaned "COSTO" ⟨0, 0⟩
  let transV ← floatOr cleaned "TRANS" ⟨0, 0⟩
  let costoRep ← floatOr cleaned "COSTO_REP" ⟨0, 0⟩
  let partrespV ← floatOr cleaned "PARTRESP" ⟨0, 0⟩
  let partopV ← floatOr cleaned "PARTOP" ⟨0, 0⟩
  let fcdresV ← floatOr cleaned "FCDRES" ⟨0, 0⟩
  let mapped : List (String × PyVal) := [
    ("no_ordp", .vStr (getS cleaned "NO_ORDP" "")),
    ("cve_copr", .vStr (getS cleaned "CVE_COPR" "")),
    ("cve_prod", .vStr (getS cleaned "CVE_PROD" "")),
    ("can_copr", .vFloat canCopr),
    ("tip_copr", .vInt (pyTrunc tipCopr)),
    ("costo", .vFloat costoV),
    ("fecha", .vStr ((cleaned.lookup "FECH_CTO").getD today)),
    ("cve_suc", .vStr (getS cleaned "CVE_SUC" "")),
    ("trans", .vInt (pyTrunc transV)),
    ("lote", .vStr (getS cleaned "LOTE" "")),
    ("new_med", .vStr (getS cleaned "NEW_MED" "")),
    ("new_copr", .vStr (getS cleaned "NEW_COPR" "")),
    ("costo_rep", .vFloat costoRep),
    ("partresp", .vInt (pyTrunc partrespV)),
    ("dmov", .vStr (getS cleaned "DMOV" "")),
    ("partop", .vInt (pyTrunc partopV)),
    ("fcdres", .vFloat fcdresV),
    ("undres", .vStr (getS cleaned "UNDRES" ""))]
  pure (mapped.filter (fun kv => !(isEmptyOrZero kv.2) || keepNumericFields.contains kv.1))

/-- One iteration of the record-selection loop of `process_ordprod_file`
(lines 348-366): skip records whose cleaned `NO_ORDP` is empty or not all
digits, keep those that `is_new_record` classifies as new and that map
successfully, and track the highest sequence value seen among them. -/
def select_step (today : String) (last : Int)
    (acc : List (Int × List (String × PyVal)) × Int) (record : RawRecord) :
    List (Int × List (String × PyVal)) × Int :=
  let no_ordp := clean_value (getRaw record "NO_ORDP" (some "0"))
  if no_ordp = "" || !pyIsdigit no_ordp then acc
  else if is_new_record last no_ordp then
    match map_ordprod_record_to_inventory_code today record with
    | some mapped =>
      let current_ordp := (pyInt? no_ordp).getD 0
      (acc.1 ++ [(current_ordp, mapped)],
       if current_ordp > acc.2 then current_ordp else acc.2)
    | none => acc
  else acc

/-- Embeds the record-collection phase of `process_ordprod_file`
(lines 342-366): fold the selection step over the file's records, starting
from an empty selection and `highest_ordp = last_processed_ordp`. -/
def collect_new_records (today : String) (last : Int) (records : List RawRecord) :
    List (Int × List (String × PyVal)) × Int :=
  records.foldl (select_step today last) ([], last)

/-- Embeds `all_records.sort(key=lambda x: x[0])` (line 372): stable sort by
the `NO_ORDP` key, ascending. -/
def sort_new_records (l : List (Int × List (String × PyVal))) :
    List (Int × List (String × PyVal)) :=
  l.mergeSort (fun a b => a.1 ≤ b.1)

/-- File metadata used by the change gate (`get_file_hash`, lines 89-99). -/
structure FileInfo where
  mtime : Int
  size : Int
deriving DecidableEq, Repr

/-- Persisted sync state of flask_dbf_uploader: the `last_processed_ordp`
high-water mark and the last-seen file metadata (`none` when the state has
no `file_info` entry yet). -/
structure SyncState where
  last_processed_ordp : Int
  file_info : Option FileInfo
deriving DecidableEq, Repr

/-- Embeds the change gate of `process_ordprod_file` (lines 316-318): the
file is considered unchanged when its mtime and size both equal the stored
values, with `0` standing in for an absent stored entry. -/
def fileUnchanged (stored : Option FileInfo) (fi : FileInfo) : Bool :=
  fi.mtime = ((stored.map FileInfo.mtime).getD 0)
    && fi.size = ((stored.map FileInfo.size).getD 0)

/-- Embeds one run of `process_ordprod_file` (lines 291-450), reduced to its
state effect and the number of records handed to the dispatch loop: if the
gate reports the file unchanged (and `--force` is off) nothing is sent and
the state is untouched; otherwise the new records are collected and the
state records the new high-water mark and file metadata. -/
def process_ordprod_file (force : Bool) (st : SyncState) (today : String)
    (fi : FileInfo) (records : List RawRecord) : Nat × SyncState :=
  if !force && fileUnchanged st.file_info fi then (0, st)
  else
    let last := if force then 0 else st.last_processed_ordp
    let collected := collect_new_records today last records
    (collected.1.length, ⟨collected.2, some fi⟩)

end FlaskDbfUploader

namespace OrdprodInventoryUploader

/-!
Embedding of `src/ordprod_inventory_uploader.py` where it differs from
`flask_dbf_uploader.py`: its `process_ordprod_file` (lines 194-298) has the
same mtime/size gate but no monotonic-sequence filter — every mappable
record is sent individually — and its state keeps only `file_info`.
-/

/-- Embeds one run of `process_ordprod_file` (lines 194-298), reduced to its
state effect and the number of records sent: gate on file metadata, then
send every record that maps successfully, then store the file metadata. -/
def process_ordprod_file (force : Bool) (stored : Option FlaskDbfUploader.FileInfo)
    (today : String) (fi : FlaskDbfUploader.FileInfo) (records : List RawRecord) :
    Nat × Option FlaskDbfUploader.FileInfo :=
  if !force && FlaskDbfUploader.fileUnchanged stored fi then (0, stored)
  else
    ((records.filterMap
        (FlaskDbfUploader.map_ordprod_record_to_inventory_code today)).length,
     some fi)

end OrdprodInventoryUploader

namespace CorrectedSchemaUploader

/-!
Embedding of `src/corrected_schema_uploader.py` (class
`CorrectedSchemaUploader`).
-/

/-- Embeds `clean_value` (corrected_schema_uploader.py lines 60-64); unlike
the flask variant its token list has no `null`. -/
def clean_value (v : Option String) : String :=
  match v with
  | none => ""
  | some s =>
    if pyLower s ∈ (["nan", "none", ""] : List String) then "" else pyStrip s

/-- Embeds the candidate loop of `extract_quantity` (lines 75-82): try each
candidate in order; a candidate passes the truthiness/token guard, must
parse as a float, and qualifies when strictly positive, yielding
`max(1, int(qty))`. -/
def tryQuantityCandidates : List String → Option Int
  | [] => none
  | v :: rest =>
    if v ≠ "" ∧ pyLower v ∉ (["nan", "none", "", "0"] : List String) then
      match pyFloat? v with
      | some qty => if qty.isPos then some (max 1 (pyTrunc qty)) else tryQuantityCandidates rest
      | none => tryQuantityCandidates rest
    else tryQuantityCandidates rest

/-- Embeds `extract_quantity` (lines 66-87): clean the three candidate
fields `REN_OPRO`, `CARGA_OPRO`, `CANT_LIQ` (missing keys default to
`'0'`), run the candidate loop, and fall back to the default quantity
`1000`. -/
def extract_quantity (record : StrRecord) : Int :=
  let ren_opro := clean_value (some (getS record "REN_OPRO" "0"))
  let carga_opro := clean_value (some (getS record "CARGA_OPRO" "0"))
  let cant_liq := clean_value (some (getS record "CANT_LIQ" "0"))
  (tryQuantityCandidates [ren_opro, carga_opro, cant_liq]).getD 1000

/-- Embeds `extract_year` (lines 89-118).  `currentYear` stands for
`str(datetime.now().year)`.  Mirrors the source's early returns: a date
with `-` returns the prefix before the first `-`; a date with `/` and
exactly three parts returns the third part when it has four characters and
the empty string otherwise (without consulting `ANO`); a `/`-date with a
different number of parts falls through to `ANO`; otherwise a four-digit
prefix is returned when present, else `ANO` (when all digits), else the
current year. -/
def extract_year (currentYear : String) (record : StrRecord) : String :=
  let fec_opro := clean_value (some (getS record "FEC_OPRO" ""))
  let ano := clean_value (some (getS record "ANO" ""))
  let anoFallback := if ano ≠ "" ∧ pyIsdigit ano then ano else currentYear
  if fec_opro ≠ "" then
    if pyContains fec_opro '-' then (pySplit fec_opro '-').headD ""
    else if pyContains fec_opro '/' then
      let parts := pySplit fec_opro '/'
      if parts.length = 3 then
        if pyLen (parts.getD 2 "") = 4 then parts.getD 2 "" else ""
      else anoFallback
    else if 4 ≤ pyLen fec_opro then
      if pyIsdigit (pyTake fec_opro 4) then pyTake fec_opro 4 else anoFallback
    else anoFallback
  else anoFallback

/-- Python `v in [None, 0]` as used by the pruning on line 180: only a
numeric zero matches (strings never do, so empty strings are retained). -/
def isNoneOrZero : PyVal → Bool
  | .vStr _ => false
  | .vFloat d => d.isZero
  | .vInt n => n = 0

/-- Embeds `map_record_to_api` (lines 120-196): clean all values, extract
year and quantity, reject records with an empty `NO_OPRO`, build the
payload (priority is the constant `"medium"`), and prune fields whose value
is `None` or `0`, always keeping `notes`. -/
def map_record_to_api (currentYear : String) (record : RawRecord) :
    Option (List (String × PyVal)) :=
  let cleaned : StrRecord := record.map (fun kv => (kv.1, clean_value kv.2))
  let year := extract_year currentYear cleaned
  let quantity := extract_quantity cleaned
  let product_key := getS cleaned "CVE_PROP" ""
  let no_opro := getS cleaned "NO_OPRO" ""
  if no_opro = "" then none
  else
    let mapped : List (String × PyVal) := [
      ("product_key", .vStr product_key),
      ("quantity_requested", .vInt quantity),
      ("warehouse_id", .vStr "45c4bbc8-2950-434c-b710-2ae0e080bfd1"),
      ("priority", .vStr "medium"),
      ("no_opro", .vStr no_opro),
      ("notes", .vStr (getS cleaned "OBSERVA" "")),
      ("lote_referencia", .vStr (getS cleaned "LOTE" "")),
      ("ano", .vStr year),
      ("stat_opro", .vStr (getS cleaned "STAT_OPRO" ""))]
    some (mapped.filter (fun kv => !(isNoneOrZero kv.2) || kv.1 == "notes"))

/-- Opaque persisted state of the corrected-schema uploader: loaded at
startup and saved back unmodified (`load_state`/`save_state` are the only
accesses; `process_dbf_file` never reads or writes a key). -/
abbrev State := List (String × String)

/-- Embeds one run of `process_dbf_file` (lines 272-329), reduced to its
state effect and the number of records handed to the batch-dispatch loop:
every record of the file that maps successfully is dispatched — there is no
file-metadata gate and no per-record diffing — and the state is saved back
unchanged. -/
def process_dbf_file (st : State) (currentYear : String) (records : List RawRecord) :
    Nat × State :=
  ((records.filterMap (map_record_to_api currentYear)).length, st)

end CorrectedSchemaUploader

/-! HTTP dispatch loops.  The remote endpoint is modelled as a function from
the attempt number to the outcome observed on that attempt. -/

/-- Retry budget: `MAX_RETRIES = 3` in all three scripts. -/
def MAX_RETRIES : Nat := 3

/-- Outcome of one HTTP POST, as discriminated by the uploaders: a response
with a status code (`jsonOk` tells whether `response.json()` parses), or a
timeout / request error / unexpected exception. -/
inductive HttpOutcome where
  | status (code : Nat) (jsonOk : Bool)
  | timeout
  | reqError
  | otherError
deriving DecidableEq, Repr

/-- Observable result of `send_inventory_code_to_api`: whether the returned
dict has `success: True`, how many attempts were made, the backoff sleeps
performed between attempts (in seconds, in order), and whether the full
payload was logged on a 422 response. -/
structure SendResult where
  success : Bool
  attempts : Nat
  sleeps : List Nat
  loggedFullPayload : Bool
deriving DecidableEq, Repr

namespace FlaskDbfUploader

/-- Retry loop of `send_inventory_code_to_api` (flask_dbf_uploader.py lines
148-206, duplicated verbatim in ordprod_inventory_uploader.py lines
131-189).  `remaining` counts the attempts the `for attempt in
range(MAX_RETRIES)` loop still has; 200/201 and 409 return success, any
other status logs (422 additionally logs the full payload) and is retried
with a `2 ** attempt` sleep while attempts remain, as are timeouts and
exceptions; when the loop ends without returning, the record is reported
failed. -/
def send_loop (env : Nat → HttpOutcome) :
    Nat → Nat → List Nat → Bool → SendResult
  | 0, attempt, sleeps, logged => ⟨false, attempt, sleeps, logged⟩
  | remaining + 1, attempt, sleeps, logged =>
    match env attempt with
    | .status code _ =>
      if code = 200 ∨ code = 201 then ⟨true, attempt + 1, sleeps, logged⟩
      else if code = 409 then ⟨true, attempt + 1, sleeps, logged⟩
      else
        let logged := logged || code == 422
        if attempt < MAX_RETRIES - 1 then
          send_loop env remaining (attempt + 1) (sleeps ++ [2 ^ attempt]) logged
        else ⟨false, attempt + 1, sleeps, logged⟩
    | _ =>
      if attempt < MAX_RETRIES - 1 then
        send_loop env remaining (attempt + 1) (sleeps ++ [2 ^ attempt]) logged
      else ⟨false, attempt + 1, sleeps, logged⟩

/-- Embeds `send_inventory_code_to_api` (lines 146-209): run the retry loop
from attempt 0 with no sleeps performed and nothing logged yet. -/
def send_inventory_code_to_api (env : Nat → HttpOutcome) : SendResult :=
  send_loop env MAX_RETRIES 0 [] false

/-- Outcome of one POST to the batch endpoint, as discriminated by
`send_inventory_codes_batch_to_api`: a 2xx response carrying optional
`success_count`/`total_count` JSON fields, a 2xx response whose body fails
to parse, a 404, any other status, or an exception. -/
inductive BatchOutcome where
  | ok (success_count : Option Nat) (total_count : Option Nat)
  | okBadJson
  | notFound
  | otherStatus (code : Nat)
  | exn
deriving DecidableEq, Repr

/-- Observable result of `send_inventory_codes_batch_to_api`: the returned
`success` flag, the `success_count`/`total_count` of its `data` when
present, and whether the per-record fallback path was taken. -/
structure BatchApiResult where
  success : Bool
  usedFallback : Bool
  success_count : Option Nat
  total_count : Option Nat
deriving DecidableEq, Repr

/-- Embeds the per-record fallback of `send_inventory_codes_batch_to_api`
(lines 271-289): send every record of the batch individually (record `i`
sees endpoint behaviour `ienv i`), count the successes, and return
`success: True` with the aggregate counts. -/
def fallback_send (ienv : Nat → Nat → HttpOutcome)
    (batch : List (List (String × PyVal))) : BatchApiResult :=
  ⟨true, true,
   some (((List.range batch.length).filter
     (fun i => (send_inventory_code_to_api (ienv i)).success)).length),
   some batch.length⟩

/-- Batch-endpoint retry loop of `send_inventory_codes_batch_to_api`
(lines 214-269): a 2xx response returns success, a 404 breaks out to the
per-record fallback, any other status or exception is retried (sleeping
while attempts remain); when the loop is exhausted the code falls through
to the fallback as well. -/
def batch_send_loop (benv : Nat → BatchOutcome) (ienv : Nat → Nat → HttpOutcome)
    (batch : List (List (String × PyVal))) : Nat → Nat → BatchApiResult
  | 0, _ => fallback_send ienv batch
  | remaining + 1, attempt =>
    match benv attempt with
    | .ok sc tc => ⟨true, false, some (sc.getD batch.length), some (tc.getD batch.length)⟩
    | .okBadJson => ⟨true, false, none, none⟩
    | .notFound => fallback_send ienv batch
    | .otherStatus _ => batch_send_loop benv ienv batch remaining (attempt + 1)
    | .exn => batch_send_loop benv ienv batch remaining (attempt + 1)

/-- Embeds `send_inventory_codes_batch_to_api` (lines 211-289). -/
def send_inventory_codes_batch_to_api (benv : Nat → BatchOutcome)
    (ienv : Nat → Nat → HttpOutcome) (batch : List (List (String × PyVal))) :
    BatchApiResult :=
  batch_send_loop benv ienv batch MAX_RETRIES 0

end FlaskDbfUploader

namespace CorrectedSchemaUploader

/-- Outcome of one POST to the production-orders batch endpoint: a response
with a status code, or any exception (network errors and timeouts are
caught by the same bare `except` on line 265). -/
inductive BatchOutcome where
  | status (code : Nat) (jsonOk : Bool)
  | exn
deriving DecidableEq, Repr

/-- Observable result of `send_batch_to_api`: the `success` flag, the
number of attempts made, and the backoff sleeps performed between
consecutive attempts (in seconds, in order). -/
structure BatchSendResult where
  success : Bool
  attempts : Nat
  sleeps : List Nat
deriving DecidableEq, Repr

/-- Retry loop of `send_batch_to_api` (corrected_schema_uploader.py lines
200-268): only a 200 response is success; any other status or an exception
sleeps `2 ** attempt` while attempts remain (`attempt < MAX_RETRIES - 1`)
and the loop proceeds; once `range(MAX_RETRIES)` is exhausted the batch is
reported failed. -/
def send_batch_loop (env : Nat → BatchOutcome) :
    Nat → Nat → List Nat → BatchSendResult
  | 0, attempt, sleeps => ⟨false, attempt, sleeps⟩
  | remaining + 1, attempt, sleeps =>
    match env attempt with
    | .status code _ =>
      if code = 200 then ⟨true, attempt + 1, sleeps⟩
      else if attempt < MAX_RETRIES - 1 then
        send_batch_loop env remaining (attempt + 1) (sleeps ++ [2 ^ attempt])
      else send_batch_loop env remaining (attempt + 1) sleeps
    | .exn =>
      if attempt < MAX_RETRIES - 1 then
        send_batch_loop env remaining (attempt + 1) (sleeps ++ [2 ^ attempt])
      else send_batch_loop env remaining (attempt + 1) sleeps

/-- Embeds `send_batch_to_api` (lines 198-270). -/
def send_batch_to_api (env : Nat → BatchOutcome) : BatchSendResult :=
  send_batch_loop env MAX_RETRIES 0 []

end CorrectedSchemaUploader

/-! Model of `save_state` as a trace of primitive file operations, for the
atomicity claim.  `save_state` (flask_dbf_uploader.py lines 68-77,
corrected_schema_uploader.py lines 50-58) executes
`open(STATE_FILE, 'w')` — which truncates the file — followed by
`json.dump(self.state, f)` which writes the serialized state. -/

/-- A primitive operation on the visible state file. -/
inductive FileWriteOp where
  | openTruncate
  | writeChunk (s : String)
deriving DecidableEq, Repr

/-- Effect of one primitive operation on the file's visible content. -/
def applyOp (content : String) : FileWriteOp → String
  | .openTruncate => ""
  | .writeChunk s => content ++ s

/-- Visible file content after running a trace of operations. -/
def runOps (content : String) (ops : List FileWriteOp) : String :=
  ops.foldl applyOp content

/-- Embeds `save_state`: truncate the state file by opening it in `'w'`
mode, then write the serialized state into it. -/
def save_state_ops (serialized : String) : List FileWriteOp :=
  [.openTruncate, .writeChunk serialized]

/-- A save procedure is a single atomic write (the spec's
write-temp-then-replace requirement) iff interrupting it after any prefix
of its operations leaves the state file holding either the old or the new
content in full. -/
def atomicSave (ops : List FileWriteOp) (old new : String) : Prop :=
  ∀ k, runOps old (ops.take k) = old ∨ runOps old (ops.take k) = new

/-! ## Claim-side specification definitions and concrete inputs -/

/-- The monotonic-sequence classification as the specification states it: a
record whose cleaned sequence field is integer-valued is changed iff its
sequence value is strictly greater than the stored high-water mark `h`;
changed records that map successfully are kept together with their sequence
value. -/
def specChangedRecord (today : String) (h : Int) (record : RawRecord) :
    Option (Int × List (String × PyVal)) :=
  let seqStr := FlaskDbfUploader.clean_value (getRaw record "NO_ORDP" (some "0"))
  if pyIsdigit seqStr ∧ h < (pyInt? seqStr).getD 0 then
    (FlaskDbfUploader.map_ordprod_record_to_inventory_code today record).map
      (fun m => ((pyInt? seqStr).getD 0, m))
  else none

/-- The quantity qualification rule as the specification states it: a
candidate qualifies when it parses as a number strictly greater than zero,
and then yields its floor with a minimum of 1. -/
def specQuantityOfCandidate (v : String) : Option Int :=
  match pyFloat? v with
  | some d => if 0 < d.value then some (max 1 ⌊d.value⌋) else none
  | none => none

/-- The ordered candidate-field list for quantity extraction. -/
def specQuantityCandidates (record : StrRecord) : List String :=
  [CorrectedSchemaUploader.clean_value (some (getS record "REN_OPRO" "0")),
   CorrectedSchemaUploader.clean_value (some (getS record "CARGA_OPRO" "0")),
   CorrectedSchemaUploader.clean_value (some (getS record "CANT_LIQ" "0"))]

/-- Year extraction from the primary date field as the specification states
it, amended where the code disagrees: a date containing `-` yields the
prefix before the first `-`; a date containing `/` that splits into exactly
three segments yields the third segment when it has exactly four characters
and the empty string otherwise (it does not fall back to the secondary
field); a `/`-date with any other number of segments yields nothing; a
separator-free date of at least four characters whose first four characters
are digits yields those; anything else yields nothing. -/
def specYearFromPrimary (fec : String) : Option String :=
  if pyContains fec '-' then some ((pySplit fec '-').headD "")
  else if pyContains fec '/' then
    if (pySplit fec '/').length = 3 then
      some (if pyLen ((pySplit fec '/').getD 2 "") = 4 then (pySplit fec '/').getD 2 "" else "")
    else none
  else if 4 ≤ pyLen fec ∧ pyIsdigit (pyTake fec 4) then some (pyTake fec 4)
  else none

/-- Year extraction as the specification states it (amended as in
`specYearFromPrimary`): try the primary field when nonempty; when it yields
nothing, use the secondary all-numeric field; when that also yields
nothing, use the current calendar year. -/
def specExtractYear (currentYear fec ano : String) : String :=
  match (if fec ≠ "" then specYearFromPrimary fec else none) with
  | some y => y
  | none => if ano ≠ "" ∧ pyIsdigit ano then ano else currentYear

/-- A payload value that resolves to a numeric zero (the specification's
"zero" in the pruning rule; strings are never numeric zero in Python). -/
def isZeroVal : PyVal → Prop
  | .vStr _ => False
  | .vFloat d => d.value = 0
  | .vInt n => n = 0

/-- An outcome of the production-orders batch endpoint that the
specification calls retryable: a non-2xx HTTP status, or a network /
timeout error. -/
def specRetryableBatch : CorrectedSchemaUploader.BatchOutcome → Prop
  | .status code _ => code < 200 ∨ 300 ≤ code
  | .exn => True

/-- An outcome of the inventory-codes batch endpoint that neither returns
success nor is the 404 that switches to the fallback: a non-2xx non-404
status, or an exception. -/
def specRetryableInvBatch : FlaskDbfUploader.BatchOutcome → Prop
  | .otherStatus _ => True
  | .exn => True
  | _ => False

/-- Records with sequence values 5, 7 and 3, the specification's example
input for the monotonic strategy. -/
def c1records : List RawRecord :=
  [[("NO_ORDP", some "5")], [("NO_ORDP", some "7")], [("NO_ORDP", some "3")]]

/-- A minimal valid production-order record (nonempty `NO_OPRO`). -/
def c2record : RawRecord := [("NO_OPRO", some "1")]

/-- A record whose status text contains `URGENTE`. -/
def c3record : RawRecord := [("NO_OPRO", some "100"), ("STAT_OPRO", some "URGENTE favor")]

/-- A two-digit-year `/`-formatted date with a valid secondary year field. -/
def c6record : StrRecord := [("FEC_OPRO", "12/31/99"), ("ANO", "1999")]

/-- A record carrying an empty `LOTE` value. -/
def c8record : RawRecord := [("NO_OPRO", some "5"), ("LOTE", some "")]

/-! ## Supporting lemmas -/

theorem Dec.isZero_iff (d : Dec) : d.isZero = true ↔ d.value = 0 := by
  unfold Dec.isZero Dec.value
  rw [div_eq_zero_iff]
  constructor
  · intro h
    left
    exact_mod_cast of_decide_eq_true h
  · intro h
    rcases h with h | h
    · exact decide_eq_true (by exact_mod_cast h)
    · exact absurd h (by positivity)

theorem Dec.isPos_iff (d : Dec) : d.isPos = true ↔ 0 < d.value := by
  unfold Dec.isPos Dec.value
  rw [div_pos_iff]
  constructor
  · intro h
    left
    constructor
    · exact_mod_cast of_decide_eq_true h
    · positivity
  · intro h
    rcases h with ⟨h, _⟩ | ⟨_, h⟩
    · exact decide_eq_true (by exact_mod_cast h)
    · exact absurd h (not_lt.mpr (by positivity))

theorem pyTrunc_eq_floor (d : Dec) (h : 0 ≤ d.num) : pyTrunc d = ⌊d.value⌋ := by
  unfold pyTrunc Dec.value
  rw [show ((10 : ℚ) ^ d.exp) = ((10 ^ d.exp : ℕ) : ℚ) by norm_cast,
    Rat.floor_intCast_div_natCast, Int.tdiv_eq_ediv h (by positivity)]
  norm_num

theorem tryQuantityCandidates_pos (l : List String) (r : Int)
    (h : CorrectedSchemaUploader.tryQuantityCandidates l = some r) : 1 ≤ r := by
  induction l with
  | nil => simp [CorrectedSchemaUploader.tryQuantityCandidates] at h
  | cons v rest ih =>
    unfold CorrectedSchemaUploader.tryQuantityCandidates at h
    split at h
    · split at h
      · split at h
        · injection h with h
          omega
        · exact ih h
      · exact ih h
    · exact ih h

theorem extract_quantity_pos (record : StrRecord) :
    1 ≤ CorrectedSchemaUploader.extract_quantity record := by
  unfold CorrectedSchemaUploader.extract_quantity
  cases h : CorrectedSchemaUploader.tryQuantityCandidates
      [CorrectedSchemaUploader.clean_value (some (getS record "REN_OPRO" "0")),
       CorrectedSchemaUploader.clean_value (some (getS record "CARGA_OPRO" "0")),
       CorrectedSchemaUploader.clean_value (some (getS record "CANT_LIQ" "0"))] with
  | none => simp [h]
  | some r => simpa [h] using tryQuantityCandidates_pos _ _ h

theorem fileUnchanged_some_self (fi : FlaskDbfUploader.FileInfo) :
    FlaskDbfUploader.fileUnchanged (some fi) fi = true := by
  simp [FlaskDbfUploader.fileUnchanged]

/-! ## Claim C5 -/

/-- C5: the specification requires every state save to be a single atomic
write (write-temp-then-replace), so that no interruption can leave a
partially written state file.  The code's `save_state` instead opens the
state file in `'w'` mode (truncating it) and then writes into it directly:
interrupting the save right after the truncation — after the first of its
two primitive operations — leaves the state file empty, which is neither
the old nor the new content.  The code therefore violates the requirement. -/
theorem c5_save_state_not_atomic :
    ∃ k, runOps "OLDSTATE" ((save_state_ops "NEWSTATE").take k) ≠ "OLDSTATE" ∧
      runOps "OLDSTATE" ((save_state_ops "NEWSTATE").take k) ≠ "NEWSTATE" :=
  ⟨1, by decide, by decide⟩

/-! ## Claim C2 -/

/-- C2 counterexample: the claim quantifies over the whole pipeline,
including `corrected_schema_uploader.process_dbf_file` (cited by its
sources) — but that variant has no file-metadata gate and consults no
per-record state, so a second run against the unchanged file and the state
saved by the first run dispatches the same one record again, not zero. -/
theorem c2_counterexample_corrected_schema_redispatches :
    (CorrectedSchemaUploader.process_dbf_file
        (CorrectedSchemaUploader.process_dbf_file [] "2025" [c2record]).2
        "2025" [c2record]).1 = 1 ∧ (1 : Nat) ≠ 0 :=
  ⟨by decide, by decide⟩

/-- C2 amended: for the two uploaders that have the mtime/size gate
(`flask_dbf_uploader` and `ordprod_inventory_uploader`, run without
`--force`), a second run against an unchanged file and the state produced
by the first run dispatches zero records. -/
theorem c2_amended_second_run_dispatches_zero :
    (∀ (st : FlaskDbfUploader.SyncState) (today : String)
        (fi : FlaskDbfUploader.FileInfo) (records : List RawRecord),
      (FlaskDbfUploader.process_ordprod_file false
          (FlaskDbfUploader.process_ordprod_file false st today fi records).2
          today fi records).1 = 0)
    ∧ (∀ (stored : Option FlaskDbfUploader.FileInfo) (today : String)
        (fi : FlaskDbfUploader.FileInfo) (records : List RawRecord),
      (OrdprodInventoryUploader.process_ordprod_file false
          (OrdprodInventoryUploader.process_ordprod_file false stored today fi records).2
          today fi records).1 = 0) := by
  constructor
  · intro st today fi records
    by_cases h : FlaskDbfUploader.fileUnchanged st.file_info fi
    · simp [FlaskDbfUploader.process_ordprod_file, h]
    · simp [FlaskDbfUploader.process_ordprod_file, h, fileUnchanged_some_self]
  · intro stored today fi records
    by_cases h : FlaskDbfUploader.fileUnchanged stored fi
    · simp [OrdprodInventoryUploader.process_ordprod_file, h]
    · simp [OrdprodInventoryUploader.process_ordprod_file, h, fileUnchanged_some_self]

/-! ## Claim C3 -/

/-- C3 counterexample: a record whose status text contains `URGENTE` is
mapped with priority `"medium"`, not high priority — the code never
inspects the status text for priority. -/
theorem c3_counterexample_urgente_is_medium :
    (CorrectedSchemaUploader.map_record_to_api "2025" c3record).bind
        (fun m => m.lookup "priority") = some (PyVal.vStr "medium")
    ∧ PyVal.vStr "medium" ≠ PyVal.vStr "high" :=
  ⟨by decide, by decide⟩

/-- C3 amended: the mapper does not classify priority at all — for every
record it maps, the payload's `priority` field is the constant
`"medium"`. -/
theorem c3_amended_priority_always_medium (y : String) (record : RawRecord)
    (m : List (String × PyVal))
    (h : CorrectedSchemaUploader.map_record_to_api y record = some m) :
    m.lookup "priority" = some (PyVal.vStr "medium") := by
  simp only [CorrectedSchemaUploader.map_record_to_api] at h
  split at h
  · exact absurd h (by simp)
  · have hq : CorrectedSchemaUploader.extract_quantity
        (record.map (fun kv => (kv.1, CorrectedSchemaUploader.clean_value kv.2))) ≠ 0 := by
      have := extract_quantity_pos
        (record.map (fun kv => (kv.1, CorrectedSchemaUploader.clean_value kv.2)))
      omega
    injection h with h
    subst h
    simp [List.filter, List.lookup, CorrectedSchemaUploader.isNoneOrZero, hq]

/-- C3 witness: the amended theorem applied to the `URGENTE` record. -/
theorem c3_amended_witness :
    ((CorrectedSchemaUploader.map_record_to_api "2025" c3record).getD []).lookup "priority"
      = some (PyVal.vStr "medium") :=
  c3_amended_priority_always_medium "2025" c3record
    ((CorrectedSchemaUploader.map_record_to_api "2025" c3record).getD []) (by decide)

/-! ## Claim C8 -/

/-- C8 counterexample: in the corrected-schema mapper an empty string is
not dropped — a record's empty `LOTE` survives into the payload as an empty
`lote_referencia`, although it is not the notes field. -/
theorem c8_counterexample_empty_string_retained :
    (CorrectedSchemaUploader.map_record_to_api "2025" c8record).bind
        (fun m => m.lookup "lote_referencia") = some (PyVal.vStr "")
    ∧ "lote_referencia" ≠ "notes" :=
  ⟨by decide, by decide⟩

/-- C8 amended: in the corrected-schema mapper only values equal to `None`
or a numeric zero are pruned — empty strings are retained — and the `notes`
field is always kept, holding the cleaned `OBSERVA` text even when empty;
in the flask mapper empty-or-zero values are pruned except a fixed
keep-list of seven numeric fields, with no notes exception. -/
theorem c8_amended_pruning_rules :
    (∀ (y : String) (record : RawRecord) (m : List (String × PyVal)),
      CorrectedSchemaUploader.map_record_to_api y record = some m →
        (∀ kv ∈ m, ¬ isZeroVal kv.2 ∨ kv.1 = "notes")
        ∧ ("notes", PyVal.vStr
            (getS (record.map (fun kv => (kv.1, CorrectedSchemaUploader.clean_value kv.2)))
              "OBSERVA" "")) ∈ m)
    ∧ (∀ (today : String) (record : RawRecord) (m : List (String × PyVal)),
      FlaskDbfUploader.map_ordprod_record_to_inventory_code today record = some m →
        ∀ kv ∈ m, (¬ isZeroVal kv.2 ∧ kv.2 ≠ PyVal.vStr "")
          ∨ kv.1 ∈ FlaskDbfUploader.keepNumericFields) := by
  constructor
  · intro y record m h
    simp only [CorrectedSchemaUploader.map_record_to_api] at h
    split at h
    · exact absurd h (by simp)
    · injection h with h
      subst h
      constructor
      · rintro ⟨k, v⟩ hkv
        rw [List.mem_filter] at hkv
        rcases hkv with ⟨-, hp⟩
        simp only [Bool.or_eq_true, Bool.not_eq_eq_eq_not, Bool.not_true, beq_iff_eq] at hp
        rcases hp with hp | hp
        · left
          cases v with
          | vStr s => simp [isZeroVal]
          | vFloat d =>
            simp only [CorrectedSchemaUploader.isNoneOrZero] at hp
            simp only [isZeroVal]
            intro hv
            exact absurd ((Dec.isZero_iff d).mpr hv) (by simp [hp])
          | vInt n =>
            simp only [CorrectedSchemaUploader.isNoneOrZero, decide_eq_false_iff_not] at hp
            simpa [isZeroVal] using hp
        · right
          exact hp
      · rw [List.mem_filter]
        refine ⟨by simp, by simp [CorrectedSchemaUploader.isNoneOrZero]⟩
  · intro today record m h
    simp only [FlaskDbfUploader.map_ordprod_record_to_inventory_code, bind, Option.bind_eq_some,
      pure, Option.some.injEq] at h
    obtain ⟨a1, h1, a2, h2, a3, h3, a4, h4, a5, h5, a6, h6, a7, h7, a8, h8, h⟩ := h
    subst h
    rintro ⟨k, v⟩ hkv
    rw [List.mem_filter] at hkv
    rcases hkv with ⟨-, hp⟩
    simp only [Bool.or_eq_true, Bool.not_eq_eq_eq_not, Bool.not_true] at hp
    rcases hp with hp | hp
    · left
      cases v with
      | vStr s =>
        simp only [FlaskDbfUploader.isEmptyOrZero, decide_eq_false_iff_not] at hp
        simp [isZeroVal, hp]
      | vFloat d =>
        simp only [FlaskDbfUploader.isEmptyOrZero] at hp
        refine ⟨?_, by simp⟩
        simp only [isZeroVal]
        intro hv
        exact absurd ((Dec.isZero_iff d).mpr hv) (by simp [hp])
      | vInt n =>
        simp only [FlaskDbfUploader.isEmptyOrZero, decide_eq_false_iff_not] at hp
        simp [isZeroVal, hp]
    · right
      simpa using hp

/-- C8 witness: the amended theorem applied to the record with the empty
`LOTE` — its payload still contains the (empty) notes field. -/
theorem c8_amended_witness :
    ("notes", PyVal.vStr "") ∈ (CorrectedSchemaUploader.map_record_to_api "2025" c8record).getD [] :=
  (c8_amended_pruning_rules.1 "2025" c8record
    ((CorrectedSchemaUploader.map_record_to_api "2025" c8record).getD []) (by decide)).2

/-! ## Claim C4 -/

/-- C4 counterexample: a dispatch attempt that receives HTTP 422 is not
non-retryable — against an endpoint answering 422 then 200, the sender
makes a second delivery attempt, sleeps one backoff delay, and succeeds,
contradicting "no further delivery attempts and no backoff sleeps". -/
theorem c4_counterexample_422_is_retried :
    FlaskDbfUploader.send_inventory_code_to_api
        (fun n => if n = 0 then HttpOutcome.status 422 true else HttpOutcome.status 200 true)
      = ⟨true, 2, [1], true⟩
    ∧ ¬ ((FlaskDbfUploader.send_inventory_code_to_api
          (fun n => if n = 0 then HttpOutcome.status 422 true else HttpOutcome.status 200 true)).attempts
            = 1
        ∧ (FlaskDbfUploader.send_inventory_code_to_api
          (fun n => if n = 0 then HttpOutcome.status 422 true else HttpOutcome.status 200 true)).sleeps
            = []) :=
  ⟨by decide, by decide⟩

/-- Once the full payload has been logged, the retry loop reports it
logged. -/
theorem send_loop_logged_stays (env : Nat → HttpOutcome) :
    ∀ (rem att : Nat) (sl : List Nat),
      (FlaskDbfUploader.send_loop env rem att sl true).loggedFullPayload = true := by
  intro rem
  induction rem with
  | zero => intro att sl; rfl
  | succ n ih =>
    intro att sl
    cases henv : env att with
    | status code jsonOk =>
      simp only [FlaskDbfUploader.send_loop, henv, Bool.true_or]
      split
      · rfl
      · split
        · rfl
        · split
          · exact ih _ _
          · rfl
    | timeout =>
      simp only [FlaskDbfUploader.send_loop, henv]
      split
      · exact ih _ _
      · rfl
    | reqError =>
      simp only [FlaskDbfUploader.send_loop, henv]
      split
      · exact ih _ _
      · rfl
    | otherError =>
      simp only [FlaskDbfUploader.send_loop, henv]
      split
      · exact ih _ _
      · rfl

/-- The retry loop never reports fewer attempts than it has already
made. -/
theorem send_loop_attempts_ge (env : Nat → HttpOutcome) :
    ∀ (rem att : Nat) (sl : List Nat) (lg : Bool),
      att ≤ (FlaskDbfUploader.send_loop env rem att sl lg).attempts := by
  intro rem
  induction rem with
  | zero => intro att sl lg; exact le_refl _
  | succ n ih =>
    intro att sl lg
    cases henv : env att with
    | status code jsonOk =>
      simp only [FlaskDbfUploader.send_loop, henv]
      split
      · exact Nat.le_succ att
      · split
        · exact Nat.le_succ att
        · split
          · exact le_trans (Nat.le_succ att) (ih _ _ _)
          · exact Nat.le_succ att
    | timeout =>
      simp only [FlaskDbfUploader.send_loop, henv]
      split
      · exact le_trans (Nat.le_succ att) (ih _ _ _)
      · exact Nat.le_succ att
    | reqError =>
      simp only [FlaskDbfUploader.send_loop, henv]
      split
      · exact le_trans (Nat.le_succ att) (ih _ _ _)
      · exact Nat.le_succ att
    | otherError =>
      simp only [FlaskDbfUploader.send_loop, henv]
      split
      · exact le_trans (Nat.le_succ att) (ih _ _ _)
      · exact Nat.le_succ att

/-- With at least one attempt remaining, the retry loop makes at least one
more attempt. -/
theorem send_loop_attempts_ge_succ (env : Nat → HttpOutcome) (rem att : Nat)
    (sl : List Nat) (lg : Bool) (hrem : 1 ≤ rem) :
    att + 1 ≤ (FlaskDbfUploader.send_loop env rem att sl lg).attempts := by
  cases rem with
  | zero => omega
  | succ n =>
    cases henv : env att with
    | status code jsonOk =>
      simp only [FlaskDbfUploader.send_loop, henv]
      split
      · exact le_refl _
      · split
        · exact le_refl _
        · split
          · exact send_loop_attempts_ge env _ _ _ _
          · exact le_refl _
    | timeout =>
      simp only [FlaskDbfUploader.send_loop, henv]
      split
      · exact send_loop_attempts_ge env _ _ _ _
      · exact le_refl _
    | reqError =>
      simp only [FlaskDbfUploader.send_loop, henv]
      split
      · exact send_loop_attempts_ge env _ _ _ _
      · exact le_refl _
    | otherError =>
      simp only [FlaskDbfUploader.send_loop, henv]
      split
      · exact send_loop_attempts_ge env _ _ _ _
      · exact le_refl _

/-- The retry loop only appends to the list of performed backoff
sleeps. -/
theorem send_loop_sleeps_extend (env : Nat → HttpOutcome) :
    ∀ (rem att : Nat) (sl : List Nat) (lg : Bool),
      ∃ tail, (FlaskDbfUploader.send_loop env rem att sl lg).sleeps = sl ++ tail := by
  intro rem
  induction rem with
  | zero => intro att sl lg; exact ⟨[], by simp [FlaskDbfUploader.send_loop]⟩
  | succ n ih =>
    intro att sl lg
    cases henv : env att with
    | status code jsonOk =>
      simp only [FlaskDbfUploader.send_loop, henv]
      split
      · exact ⟨[], by simp⟩
      · split
        · exact ⟨[], by simp⟩
        · split
          · obtain ⟨tail, ht⟩ := ih (att + 1) (sl ++ [2 ^ att]) (lg || (code == 422))
            exact ⟨[2 ^ att] ++ tail, by rw [ht, List.append_assoc]⟩
          · exact ⟨[], by simp⟩
    | timeout =>
      simp only [FlaskDbfUploader.send_loop, henv]
      split
      · obtain ⟨tail, ht⟩ := ih (att + 1) (sl ++ [2 ^ att]) lg
        exact ⟨[2 ^ att] ++ tail, by rw [ht, List.append_assoc]⟩
      · exact ⟨[], by simp⟩
    | reqError =>
      simp only [FlaskDbfUploader.send_loop, henv]
      split
      · obtain ⟨tail, ht⟩ := ih (att + 1) (sl ++ [2 ^ att]) lg
        exact ⟨[2 ^ att] ++ tail, by rw [ht, List.append_assoc]⟩
      · exact ⟨[], by simp⟩
    | otherError =>
      simp only [FlaskDbfUploader.send_loop, henv]
      split
      · obtain ⟨tail, ht⟩ := ih (att + 1) (sl ++ [2 ^ att]) lg
        exact ⟨[2 ^ att] ++ tail, by rw [ht, List.append_assoc]⟩
      · exact ⟨[], by simp⟩

/-- C4 amended: a 422 response is logged with the full payload for
diagnosis, but it is retried with a backoff sleep like any other non-2xx
status (a second attempt happens and the first backoff delay is one
second); the record is marked failed only after all `MAX_RETRIES` attempts
fail. -/
theorem c4_amended_422_retried :
    (∀ (env : Nat → HttpOutcome) (ok : Bool), env 0 = HttpOutcome.status 422 ok →
      (FlaskDbfUploader.send_inventory_code_to_api env).loggedFullPayload = true
      ∧ 2 ≤ (FlaskDbfUploader.send_inventory_code_to_api env).attempts
      ∧ (FlaskDbfUploader.send_inventory_code_to_api env).sleeps.head? = some 1)
    ∧ (∀ env : Nat → HttpOutcome,
      (∀ i, i < MAX_RETRIES → ∃ ok, env i = HttpOutcome.status 422 ok) →
      FlaskDbfUploader.send_inventory_code_to_api env
        = ⟨false, 3, [1, 2], true⟩) := by
  constructor
  · intro env ok h0
    have hstep : FlaskDbfUploader.send_inventory_code_to_api env
        = FlaskDbfUploader.send_loop env 2 1 [1] true := by
      simp [FlaskDbfUploader.send_inventory_code_to_api, MAX_RETRIES,
        FlaskDbfUploader.send_loop, h0]
    rw [hstep]
    refine ⟨send_loop_logged_stays env 2 1 [1], ?_, ?_⟩
    · exact send_loop_attempts_ge_succ env 2 1 [1] true (by omega)
    · obtain ⟨tail, ht⟩ := send_loop_sleeps_extend env 2 1 [1] true
      simp [ht]
  · intro env h
    obtain ⟨ok0, h0⟩ := h 0 (by decide)
    obtain ⟨ok1, h1⟩ := h 1 (by decide)
    obtain ⟨ok2, h2⟩ := h 2 (by decide)
    simp [FlaskDbfUploader.send_inventory_code_to_api, MAX_RETRIES,
      FlaskDbfUploader.send_loop, h0, h1, h2]

/-- C4 witness: the amended theorem applied to an endpoint that answers 422
on every attempt. -/
theorem c4_amended_witness :
    (FlaskDbfUploader.send_inventory_code_to_api
        (fun _ => HttpOutcome.status 422 true)).loggedFullPayload = true
    ∧ FlaskDbfUploader.send_inventory_code_to_api (fun _ => HttpOutcome.status 422 true)
        = ⟨false, 3, [1, 2], true⟩ :=
  ⟨(c4_amended_422_retried.1 (fun _ => HttpOutcome.status 422 true) true rfl).1,
   c4_amended_422_retried.2 (fun _ => HttpOutcome.status 422 true) (fun _ _ => ⟨true, rfl⟩)⟩

/-! ## Claim C9 -/

/-- The batch retry loop never reports fewer attempts than already
made. -/
theorem send_batch_loop_attempts_ge (env : Nat → CorrectedSchemaUploader.BatchOutcome) :
    ∀ (rem att : Nat) (sl : List Nat),
      att ≤ (CorrectedSchemaUploader.send_batch_loop env rem att sl).attempts := by
  intro rem
  induction rem with
  | zero => intro att sl; exact le_refl _
  | succ n ih =>
    intro att sl
    cases henv : env att with
    | status code jsonOk =>
      simp only [CorrectedSchemaUploader.send_batch_loop, henv]
      split
      · exact Nat.le_succ att
      · split
        · exact le_trans (Nat.le_succ att) (ih _ _)
        · exact le_trans (Nat.le_succ att) (ih _ _)
    | exn =>
      simp only [CorrectedSchemaUploader.send_batch_loop, henv]
      split
      · exact le_trans (Nat.le_succ att) (ih _ _)
      · exact le_trans (Nat.le_succ att) (ih _ _)

/-- With at least one attempt remaining, the batch retry loop makes at
least one more attempt. -/
theorem send_batch_loop_attempts_ge_succ (env : Nat → CorrectedSchemaUploader.BatchOutcome)
    (rem att : Nat) (sl : List Nat) (hrem : 1 ≤ rem) :
    att + 1 ≤ (CorrectedSchemaUploader.send_batch_loop env rem att sl).attempts := by
  cases rem with
  | zero => omega
  | succ n =>
    cases henv : env att with
    | status code jsonOk =>
      simp only [CorrectedSchemaUploader.send_batch_loop, henv]
      split
      · exact le_refl _
      · split
        · exact send_batch_loop_attempts_ge env _ _ _
        · exact send_batch_loop_attempts_ge env _ _ _
    | exn =>
      simp only [CorrectedSchemaUploader.send_batch_loop, henv]
      split
      · exact send_batch_loop_attempts_ge env _ _ _
      · exact send_batch_loop_attempts_ge env _ _ _

/-- A retryable outcome below the retry bound advances the batch loop to
the next attempt, recording one backoff sleep of `2 ^ attempt`. -/
theorem send_batch_loop_step_retry (env : Nat → CorrectedSchemaUploader.BatchOutcome)
    (rem att : Nat) (sl : List Nat) (h : specRetryableBatch (env att))
    (hlt : att < MAX_RETRIES - 1) :
    CorrectedSchemaUploader.send_batch_loop env (rem + 1) att sl
      = CorrectedSchemaUploader.send_batch_loop env rem (att + 1) (sl ++ [2 ^ att]) := by
  cases henv : env att with
  | status code jsonOk =>
    rw [henv] at h
    simp only [specRetryableBatch] at h
    simp only [CorrectedSchemaUploader.send_batch_loop, henv]
    rw [if_neg (by omega), if_pos hlt]
  | exn =>
    simp only [CorrectedSchemaUploader.send_batch_loop, henv]
    rw [if_pos hlt]

/-- Invariant of the batch retry loop: it makes at most `MAX_RETRIES`
attempts, and the backoff sleeps performed are exactly `2 ^ 0, 2 ^ 1, ...`,
one between each pair of consecutive attempts. -/
theorem send_batch_loop_spec (env : Nat → CorrectedSchemaUploader.BatchOutcome) :
    ∀ (rem att : Nat) (sl : List Nat), att + rem = MAX_RETRIES →
      sl = (List.range (min att (MAX_RETRIES - 1))).map (fun i => 2 ^ i) →
      (CorrectedSchemaUploader.send_batch_loop env rem att sl).attempts ≤ MAX_RETRIES
      ∧ (CorrectedSchemaUploader.send_batch_loop env rem att sl).sleeps
          = (List.range ((CorrectedSchemaUploader.send_batch_loop env rem att sl).attempts - 1)).map
              (fun i => 2 ^ i) := by
  intro rem
  induction rem with
  | zero =>
    intro att sl hatt hsl
    simp only [MAX_RETRIES] at hatt hsl ⊢
    have hatteq : att = 3 := by omega
    subst hatteq
    exact ⟨le_refl _, by simpa using hsl⟩
  | succ n ih =>
    intro att sl hatt hsl
    simp only [MAX_RETRIES] at hatt hsl ⊢
    have hatt2 : att ≤ 2 := by omega
    rw [Nat.min_eq_left hatt2] at hsl
    cases henv : env att with
    | status code jsonOk =>
      simp only [CorrectedSchemaUploader.send_batch_loop, henv, MAX_RETRIES]
      split
      · exact ⟨by show att + 1 ≤ 3; omega, by simpa using hsl⟩
      · split
        · have harg : sl ++ [2 ^ att]
              = (List.range (min (att + 1) (MAX_RETRIES - 1))).map (fun i => 2 ^ i) := by
            simp only [MAX_RETRIES]
            rw [Nat.min_eq_left (by omega), List.range_succ, List.map_append, hsl]
            rfl
          have := ih (att + 1) (sl ++ [2 ^ att]) (by simp only [MAX_RETRIES]; omega) harg
          simpa [MAX_RETRIES] using this
        · have hatteq : att = 2 := by omega
          subst hatteq
          have harg : sl = (List.range (min 3 (MAX_RETRIES - 1))).map (fun i => 2 ^ i) := by
            simpa [MAX_RETRIES] using hsl
          have := ih 3 sl (by simp only [MAX_RETRIES]; omega) harg
          simpa [MAX_RETRIES] using this
    | exn =>
      simp only [CorrectedSchemaUploader.send_batch_loop, henv, MAX_RETRIES]
      split
      · have harg : sl ++ [2 ^ att]
            = (List.range (min (att + 1) (MAX_RETRIES - 1))).map (fun i => 2 ^ i) := by
          simp only [MAX_RETRIES]
          rw [Nat.min_eq_left (by omega), List.range_succ, List.map_append, hsl]
          rfl
        have := ih (att + 1) (sl ++ [2 ^ att]) (by simp only [MAX_RETRIES]; omega) harg
        simpa [MAX_RETRIES] using this
      · have hatteq : att = 2 := by omega
        subst hatteq
        have harg : sl = (List.range (min 3 (MAX_RETRIES - 1))).map (fun i => 2 ^ i) := by
          simpa [MAX_RETRIES] using hsl
        have := ih 3 sl (by simp only [MAX_RETRIES]; omega) harg
        simpa [MAX_RETRIES] using this

/-- C9: `send_batch_to_api` attempts delivery at most `MAX_RETRIES` times;
between consecutive attempts it sleeps `base * 2 ^ attempt` seconds (base
1); a non-2xx status or a network/timeout error before the last attempt
leads to a further attempt; and against an endpoint failing twice then
answering 200 on the third attempt, the result is one successful dispatch
with exactly the two backoff delays `[1, 2]`. -/
theorem c9_retry_backoff :
    (∀ env, (CorrectedSchemaUploader.send_batch_to_api env).attempts ≤ MAX_RETRIES)
    ∧ (∀ env, (CorrectedSchemaUploader.send_batch_to_api env).sleeps
        = (List.range ((CorrectedSchemaUploader.send_batch_to_api env).attempts - 1)).map
            (fun i => 2 ^ i))
    ∧ (∀ env i, i < MAX_RETRIES - 1 → (∀ j, j ≤ i → specRetryableBatch (env j)) →
        i + 2 ≤ (CorrectedSchemaUploader.send_batch_to_api env).attempts)
    ∧ CorrectedSchemaUploader.send_batch_to_api
        (fun n => if n < 2 then .exn else .status 200 true)
        = ⟨true, 3, [1, 2]⟩ := by
  refine ⟨?_, ?_, ?_, by decide⟩
  · intro env
    exact (send_batch_loop_spec env MAX_RETRIES 0 [] (by simp) (by simp)).1
  · intro env
    exact (send_batch_loop_spec env MAX_RETRIES 0 [] (by simp) (by simp)).2
  · intro env i hi hall
    simp only [MAX_RETRIES] at hi
    have e1 : CorrectedSchemaUploader.send_batch_to_api env
        = CorrectedSchemaUploader.send_batch_loop env (2 + 1) 0 [] := rfl
    interval_cases i
    · rw [e1, send_batch_loop_step_retry env 2 0 [] (hall 0 (le_refl 0)) (by decide)]
      exact send_batch_loop_attempts_ge_succ env 2 1 _ (by omega)
    · rw [e1, send_batch_loop_step_retry env 2 0 [] (hall 0 (by omega)) (by decide),
        send_batch_loop_step_retry env 1 1 _ (hall 1 (le_refl 1)) (by decide)]
      exact send_batch_loop_attempts_ge_succ env 1 2 _ (by omega)

/-- C9 witness: the retry bound and the retried-attempt conjuncts applied
to an endpoint that always raises. -/
theorem c9_retry_backoff_witness :
    2 ≤ (CorrectedSchemaUploader.send_batch_to_api
          (fun _ => CorrectedSchemaUploader.BatchOutcome.exn)).attempts
    ∧ (CorrectedSchemaUploader.send_batch_to_api
          (fun _ => CorrectedSchemaUploader.BatchOutcome.exn)).attempts ≤ MAX_RETRIES :=
  ⟨c9_retry_backoff.2.2.1 (fun _ => CorrectedSchemaUploader.BatchOutcome.exn) 0
      (by decide) (fun _ _ => trivial),
   c9_retry_backoff.1 (fun _ => CorrectedSchemaUploader.BatchOutcome.exn)⟩

/-! ## Claim C10 -/

/-- Every run of the inventory-codes batch loop either ends in the
per-record fallback or reports that the fallback was not used. -/
theorem batch_send_loop_fallback_or_not (benv : Nat → FlaskDbfUploader.BatchOutcome)
    (ienv : Nat → Nat → HttpOutcome) (batch : List (List (String × PyVal))) :
    ∀ (rem att : Nat),
      FlaskDbfUploader.batch_send_loop benv ienv batch rem att
          = FlaskDbfUploader.fallback_send ienv batch
      ∨ (FlaskDbfUploader.batch_send_loop benv ienv batch rem att).usedFallback = false := by
  intro rem
  induction rem with
  | zero => intro att; exact Or.inl rfl
  | succ n ih =>
    intro att
    cases henv : benv att with
    | ok sc tc => right; simp [FlaskDbfUploader.batch_send_loop, henv]
    | okBadJson => right; simp [FlaskDbfUploader.batch_send_loop, henv]
    | notFound => left; simp [FlaskDbfUploader.batch_send_loop, henv]
    | otherStatus code =>
      simp only [FlaskDbfUploader.batch_send_loop, henv]
      exact ih (att + 1)
    | exn =>
      simp only [FlaskDbfUploader.batch_send_loop, henv]
      exact ih (att + 1)

/-- When every remaining batch attempt meets a retryable outcome, the
batch loop exhausts its attempts and falls through to the per-record
fallback. -/
theorem batch_send_loop_all_retry (benv : Nat → FlaskDbfUploader.BatchOutcome)
    (ienv : Nat → Nat → HttpOutcome) (batch : List (List (String × PyVal))) :
    ∀ (rem att : Nat), (∀ i, att ≤ i → i < att + rem → specRetryableInvBatch (benv i)) →
      FlaskDbfUploader.batch_send_loop benv ienv batch rem att
        = FlaskDbfUploader.fallback_send ienv batch := by
  intro rem
  induction rem with
  | zero => intro att _; rfl
  | succ n ih =>
    intro att hall
    have hcur := hall att (le_refl _) (by omega)
    cases henv : benv att with
    | ok sc tc =>
      rw [henv] at hcur
      exact hcur.elim
    | okBadJson =>
      rw [henv] at hcur
      exact hcur.elim
    | notFound =>
      rw [henv] at hcur
      exact hcur.elim
    | otherStatus code =>
      simp only [FlaskDbfUploader.batch_send_loop, henv]
      exact ih (att + 1) (fun i h1 h2 => hall i (by omega) (by omega))
    | exn =>
      simp only [FlaskDbfUploader.batch_send_loop, henv]
      exact ih (att + 1) (fun i h1 h2 => hall i (by omega) (by omega))

/-- C10: whenever `send_inventory_codes_batch_to_api` reaches its
per-record fallback path, the returned result has `success = true` and
aggregates only a success count over the individual sends; the fallback is
reached on an immediate 404 from the batch endpoint and also after all
`MAX_RETRIES` batch attempts fail retryably; and for a one-record batch
whose batch endpoint answers 500 and whose individual sends all fail, the
result is still `success = true` with a success count of zero. -/
theorem c10_fallback_always_success :
    (∀ benv ienv (batch : List (List (String × PyVal))),
      (FlaskDbfUploader.send_inventory_codes_batch_to_api benv ienv batch).usedFallback = true →
        (FlaskDbfUploader.send_inventory_codes_batch_to_api benv ienv batch).success = true
        ∧ (FlaskDbfUploader.send_inventory_codes_batch_to_api benv ienv batch).success_count
            = some (((List.range batch.length).filter
                (fun i => (FlaskDbfUploader.send_inventory_code_to_api (ienv i)).success)).length))
    ∧ (∀ benv ienv (batch : List (List (String × PyVal))),
        benv 0 = FlaskDbfUploader.BatchOutcome.notFound →
        (FlaskDbfUploader.send_inventory_codes_batch_to_api benv ienv batch).usedFallback = true)
    ∧ (∀ benv ienv (batch : List (List (String × PyVal))),
        (∀ i, i < MAX_RETRIES → specRetryableInvBatch (benv i)) →
        (FlaskDbfUploader.send_inventory_codes_batch_to_api benv ienv batch).usedFallback = true)
    ∧ FlaskDbfUploader.send_inventory_codes_batch_to_api
        (fun _ => FlaskDbfUploader.BatchOutcome.otherStatus 500) (fun _ _ => HttpOutcome.reqError)
        [[("no_ordp", PyVal.vStr "1")]]
        = ⟨true, true, some 0, some 1⟩ := by
  refine ⟨?_, ?_, ?_, by decide⟩
  · intro benv ienv batch hf
    rcases batch_send_loop_fallback_or_not benv ienv batch MAX_RETRIES 0 with h | h
    · simp only [FlaskDbfUploader.send_inventory_codes_batch_to_api] at hf ⊢
      rw [h]
      exact ⟨rfl, rfl⟩
    · simp only [FlaskDbfUploader.send_inventory_codes_batch_to_api] at hf
      rw [h] at hf
      cases hf
  · intro benv ienv batch h0
    have e1 : FlaskDbfUploader.send_inventory_codes_batch_to_api benv ienv batch
        = FlaskDbfUploader.batch_send_loop benv ienv batch (2 + 1) 0 := rfl
    rw [e1]
    simp [FlaskDbfUploader.batch_send_loop, h0, FlaskDbfUploader.fallback_send]
  · intro benv ienv batch hall
    have e1 : FlaskDbfUploader.send_inventory_codes_batch_to_api benv ienv batch
        = FlaskDbfUploader.batch_send_loop benv ienv batch (2 + 1) 0 := rfl
    rw [e1, batch_send_loop_all_retry benv ienv batch (2 + 1) 0
      (fun i h1 h2 => hall i (by simpa [MAX_RETRIES] using h2))]
    rfl

/-- C10 witness: the 404 conjunct and the always-success conjunct applied
to a concrete one-record batch. -/
theorem c10_fallback_witness :
    (FlaskDbfUploader.send_inventory_codes_batch_to_api
        (fun _ => FlaskDbfUploader.BatchOutcome.notFound) (fun _ _ => HttpOutcome.reqError)
        [[("no_ordp", PyVal.vStr "1")]]).usedFallback = true
    ∧ (FlaskDbfUploader.send_inventory_codes_batch_to_api
        (fun _ => FlaskDbfUploader.BatchOutcome.notFound) (fun _ _ => HttpOutcome.reqError)
        [[("no_ordp", PyVal.vStr "1")]]).success = true :=
  have hf := c10_fallback_always_success.2.1
    (fun _ => FlaskDbfUploader.BatchOutcome.notFound) (fun _ _ => HttpOutcome.reqError)
    [[("no_ordp", PyVal.vStr "1")]] rfl
  ⟨hf, (c10_fallback_always_success.1
    (fun _ => FlaskDbfUploader.BatchOutcome.notFound) (fun _ _ => HttpOutcome.reqError)
    [[("no_ordp", PyVal.vStr "1")]] hf).1⟩

/-! ## Claim C6 -/

/-- C6 counterexample: for the date `12/31/99` (three `/`-separated
segments whose third is not 4 characters) the extractor returns the empty
string directly — it does not fall back to the secondary `ANO` field even
though that field holds the all-numeric year `1999`. -/
theorem c6_counterexample_no_ano_fallback :
    CorrectedSchemaUploader.extract_year "2025" c6record = ""
    ∧ CorrectedSchemaUploader.extract_year "2025" c6record ≠ "1999"
    ∧ pyIsdigit "1999" = true :=
  ⟨by decide, by decide, by decide⟩

/-- C6 amended: year extraction follows the claim's branch order, except
that a `/`-date with exactly three segments always yields an answer in the
primary step — the third segment when it has four characters and the empty
string otherwise — so the secondary field is consulted only when the
primary field is empty, splits on `/` into a number of segments other than
three, or has no separator and no four-digit prefix. -/
theorem c6_amended_year_extraction (y : String) (record : StrRecord) :
    CorrectedSchemaUploader.extract_year y record
      = specExtractYear y
          (CorrectedSchemaUploader.clean_value (some (getS record "FEC_OPRO" "")))
          (CorrectedSchemaUploader.clean_value (some (getS record "ANO" ""))) := by
  unfold CorrectedSchemaUploader.extract_year specExtractYear specYearFromPrimary
  set fec := CorrectedSchemaUploader.clean_value (some (getS record "FEC_OPRO" "")) with hfec
  set ano := CorrectedSchemaUploader.clean_value (some (getS record "ANO" "")) with hano
  by_cases h1 : fec = ""
  · simp [h1]
  · by_cases h2 : pyContains fec '-'
    · simp [h1, h2]
    · by_cases h3 : pyContains fec '/'
      · by_cases h4 : (pySplit fec '/').length = 3
        · simp [h1, h2, h3, h4]
        · simp [h1, h2, h3, h4]
      · by_cases h5 : 4 ≤ pyLen fec
        · by_cases h6 : pyIsdigit (pyTake fec 4)
          · simp [h1, h2, h3, h5, h6]
          · simp [h1, h2, h3, h5, h6]
        · simp [h1, h2, h3, h5]

/-! ## Claim C7 -/

/-- A successful accumulating digit parse only consumes ASCII digits. -/
theorem natOfDigitsAux_all_digits :
    ∀ (cs : List Char) (acc n : Nat), natOfDigitsAux cs acc = some n →
      ∀ c ∈ cs, isAsciiDigit c = true := by
  intro cs
  induction cs with
  | nil => intro acc n h c hc; simp at hc
  | cons a t ih =>
    intro acc n h c hc
    simp only [natOfDigitsAux] at h
    cases hda : digitVal? a with
    | none => rw [hda] at h; cases h
    | some dv =>
      rw [hda] at h
      rcases List.mem_cons.mp hc with rfl | hc'
      · unfold digitVal? at hda
        split at hda
        · assumption
        · cases hda
      · exact ih _ _ h c hc'

/-- A successful digit-string parse only consumes ASCII digits. -/
theorem natOfDigits?_all_digits (cs : List Char) (n : Nat) (h : natOfDigits? cs = some n) :
    ∀ c ∈ cs, isAsciiDigit c = true := by
  cases cs with
  | nil => intro c hc; simp at hc
  | cons a t => exact natOfDigitsAux_all_digits (a :: t) 0 n h

/-- The first element surviving `dropWhile` fails the predicate. -/
theorem dropWhile_head_eq_false {α : Type} (p : α → Bool) :
    ∀ (l : List α) (x : α) (xs : List α), l.dropWhile p = x :: xs → p x = false := by
  intro l
  induction l with
  | nil => intro x xs h; cases h
  | cons a t ih =>
    intro x xs h
    rw [List.dropWhile_cons] at h
    cases hpa : p a with
    | true => rw [if_pos (by simp [hpa])] at h; exact ih x xs h
    | false =>
      rw [if_neg (by simp [hpa])] at h
      injection h with h1 _
      subst h1
      exact hpa

/-- A string accepted by the unsigned decimal parser consists solely of
ASCII digits and the decimal point. -/
theorem parseUnsigned_chars (cs : List Char) (d : Dec) (h : parseUnsigned cs = some d) :
    ∀ c ∈ cs, isAsciiDigit c = true ∨ c = '.' := by
  have hsplit := List.takeWhile_append_dropWhile (p := fun c => c ≠ '.') (l := cs)
  simp only [parseUnsigned] at h
  cases hrest : cs.dropWhile (fun c => c ≠ '.') with
  | nil =>
    rw [hrest, List.append_nil] at hsplit
    simp only [hrest, List.isEmpty_nil, if_true] at h
    rw [Option.map_eq_some'] at h
    obtain ⟨n, hn, -⟩ := h
    intro c hc
    rw [← hsplit] at hc
    exact Or.inl (natOfDigits?_all_digits _ n hn c hc)
  | cons dd frac =>
    have hdd : dd = '.' := by
      simpa using dropWhile_head_eq_false (fun c => c ≠ '.') cs dd frac hrest
    rw [hrest] at hsplit
    simp only [hrest, List.isEmpty_cons, List.tail_cons, Bool.false_eq_true, if_false] at h
    by_cases hdot : frac.contains '.' = true
    · rw [if_pos hdot] at h; cases h
    · rw [if_neg hdot] at h
      by_cases hipe : (cs.takeWhile (fun c => c ≠ '.')).isEmpty = true
      · rw [if_pos hipe] at h
        by_cases hfre : frac.isEmpty = true
        · rw [if_pos hfre] at h; cases h
        · rw [if_neg hfre] at h
          rw [Option.map_eq_some'] at h
          obtain ⟨n, hn, -⟩ := h
          intro c hc
          rw [← hsplit] at hc
          rcases List.mem_append.mp hc with hc | hc
          · rw [List.isEmpty_eq_true.mp hipe] at hc
            simp at hc
          · rcases List.mem_cons.mp hc with rfl | hc'
            · exact Or.inr hdd
            · exact Or.inl (natOfDigits?_all_digits _ n hn c hc')
      · rw [if_neg hipe] at h
        by_cases hfre : frac.isEmpty = true
        · rw [if_pos hfre] at h
          rw [Option.map_eq_some'] at h
          obtain ⟨n, hn, -⟩ := h
          intro c hc
          rw [← hsplit] at hc
          rcases List.mem_append.mp hc with hc | hc
          · exact Or.inl (natOfDigits?_all_digits _ n hn c hc)
          · rcases List.mem_cons.mp hc with rfl | hc'
            · exact Or.inr hdd
            · rw [List.isEmpty_eq_true.mp hfre] at hc'
              simp at hc'
        · rw [if_neg hfre] at h
          simp only [bind, Option.bind_eq_some, pure, Option.some.injEq] at h
          obtain ⟨n1, hn1, n2, hn2, -⟩ := h
          intro c hc
          rw [← hsplit] at hc
          rcases List.mem_append.mp hc with hc | hc
          · exact Or.inl (natOfDigits?_all_digits _ n1 hn1 c hc)
          · rcases List.mem_cons.mp hc with rfl | hc'
            · exact Or.inr hdd
            · exact Or.inl (natOfDigits?_all_digits _ n2 hn2 c hc')

/-- A string accepted by the float parser consists solely of ASCII digits,
the decimal point and sign characters. -/
theorem pyFloat?_some_chars (v : String) (d : Dec) (h : pyFloat? v = some d) :
    ∀ c ∈ v.data, isAsciiDigit c = true ∨ c = '.' ∨ c = '+' ∨ c = '-' := by
  cases hdl : v.data with
  | nil => intro c hc; simp at hc
  | cons c0 cs =>
    simp only [pyFloat?, hdl] at h
    by_cases h1 : c0 = '+'
    · rw [if_pos h1] at h
      subst h1
      intro c hc
      rcases List.mem_cons.mp hc with rfl | hc'
      · exact Or.inr (Or.inr (Or.inl rfl))
      · rcases parseUnsigned_chars cs d h c hc' with hd | hd
        · exact Or.inl hd
        · exact Or.inr (Or.inl hd)
    · rw [if_neg h1] at h
      by_cases h2 : c0 = '-'
      · rw [if_pos h2] at h
        subst h2
        rw [Option.map_eq_some'] at h
        obtain ⟨d', hd', -⟩ := h
        intro c hc
        rcases List.mem_cons.mp hc with rfl | hc'
        · exact Or.inr (Or.inr (Or.inr rfl))
        · rcases parseUnsigned_chars cs d' hd' c hc' with hd | hd
          · exact Or.inl hd
          · exact Or.inr (Or.inl hd)
      · rw [if_neg h2] at h
        intro c hc
        rcases parseUnsigned_chars (c0 :: cs) d h c hc with hd | hd
        · exact Or.inl hd
        · exact Or.inr (Or.inl hd)

/-- Lowercasing fixes ASCII digits. -/
theorem toLower_of_ascii_digit (c : Char) (h : isAsciiDigit c = true) : c.toLower = c := by
  simp only [isAsciiDigit, Bool.and_eq_true, decide_eq_true_eq] at h
  unfold Char.toLower
  rw [if_neg]
  omega

/-- A string lowercasing to one character has one character. -/
theorem map_toLower_one (l : List Char) (x : Char) (h : l.map Char.toLower = [x]) :
    ∃ a, l = [a] ∧ a.toLower = x := by
  cases l with
  | nil => simp at h
  | cons a l1 =>
    cases l1 with
    | nil => simp at h; exact ⟨a, rfl, h⟩
    | cons b l2 => simp at h

/-- A string lowercasing to three characters has three characters. -/
theorem map_toLower_three (l : List Char) (x y z : Char) (h : l.map Char.toLower = [x, y, z]) :
    ∃ a b c, l = [a, b, c] ∧ a.toLower = x ∧ b.toLower = y ∧ c.toLower = z := by
  cases l with
  | nil => simp at h
  | cons a l1 =>
    cases l1 with
    | nil => simp at h
    | cons b l2 =>
      cases l2 with
      | nil => simp at h
      | cons c l3 =>
        cases l3 with
        | nil =>
          simp at h
          exact ⟨a, b, c, rfl, h.1, h.2.1, h.2.2⟩
        | cons d l4 => simp at h

/-- A string lowercasing to four characters has four characters. -/
theorem map_toLower_four (l : List Char) (w x y z : Char) (h : l.map Char.toLower = [w, x, y, z]) :
    ∃ a b c d, l = [a, b, c, d] ∧ a.toLower = w ∧ b.toLower = x ∧ c.toLower = y ∧ d.toLower = z := by
  cases l with
  | nil => simp at h
  | cons a l1 =>
    cases l1 with
    | nil => simp at h
    | cons b l2 =>
      cases l2 with
      | nil => simp at h
      | cons c l3 =>
        cases l3 with
        | nil => simp at h
        | cons d l4 =>
          cases l4 with
          | nil =>
            simp at h
            exact ⟨a, b, c, d, rfl, h.1, h.2.1, h.2.2.1, h.2.2.2⟩
          | cons e l5 => simp at h

/-- The float parser rejects the empty string. -/
theorem pyFloat?_none_of_data_nil (v : String) (h : v.data = []) : pyFloat? v = none := by
  simp only [pyFloat?, h]

/-- The float parser rejects any string whose lowercasing is `nan` (its
middle character lowers to the letter `a`, which no accepted character
does). -/
theorem pyFloat?_none_of_lower_nan (v : String) (h : pyLower v = "nan") : pyFloat? v = none := by
  have hm : v.data.map Char.toLower = "nan".data := congrArg String.data h
  obtain ⟨a, b, c, hdl, -, hb, -⟩ := map_toLower_three v.data 'n' 'a' 'n' hm
  cases hf : pyFloat? v with
  | none => rfl
  | some d =>
    exfalso
    have hch := pyFloat?_some_chars v d hf b (by rw [hdl]; simp)
    rcases hch with hd | hd | hd | hd
    · rw [toLower_of_ascii_digit b hd] at hb
      subst hb
      simp [isAsciiDigit] at hd
    · subst hd; exact absurd hb (by decide)
    · subst hd; exact absurd hb (by decide)
    · subst hd; exact absurd hb (by decide)

/-- The float parser rejects any string whose lowercasing is `none`. -/
theorem pyFloat?_none_of_lower_none (v : String) (h : pyLower v = "none") : pyFloat? v = none := by
  have hm : v.data.map Char.toLower = "none".data := congrArg String.data h
  obtain ⟨a, b, c, d, hdl, -, hb, -, -⟩ := map_toLower_four v.data 'n' 'o' 'n' 'e' hm
  cases hf : pyFloat? v with
  | none => rfl
  | some dq =>
    exfalso
    have hch := pyFloat?_some_chars v dq hf b (by rw [hdl]; simp)
    rcases hch with hd | hd | hd | hd
    · rw [toLower_of_ascii_digit b hd] at hb
      subst hb
      simp [isAsciiDigit] at hd
    · subst hd; exact absurd hb (by decide)
    · subst hd; exact absurd hb (by decide)
    · subst hd; exact absurd hb (by decide)

/-- A string lowercasing to `0` either is `0` or is rejected by the float
parser. -/
theorem lower_zero_cases (v : String) (h : pyLower v = "0") :
    v = "0" ∨ pyFloat? v = none := by
  have hm : v.data.map Char.toLower = "0".data := congrArg String.data h
  obtain ⟨a, hdl, ha⟩ := map_toLower_one v.data '0' hm
  cases hf : pyFloat? v with
  | none => exact Or.inr rfl
  | some d =>
    left
    have hch := pyFloat?_some_chars v d hf a (by rw [hdl]; simp)
    have ha0 : a = '0' := by
      rcases hch with hd | hd | hd | hd
      · rw [toLower_of_ascii_digit a hd] at ha
        exact ha
      · subst hd; exact absurd ha (by decide)
      · subst hd; exact absurd ha (by decide)
      · subst hd; exact absurd ha (by decide)
    subst ha0
    cases v with
    | mk data =>
      have hd2 : data = ['0'] := by simpa using hdl
      subst hd2
      rfl

/-- Only the empty string lowercases to the empty string. -/
theorem lower_empty_eq (v : String) (h : pyLower v = "") : v = "" := by
  have hm : v.data.map Char.toLower = "".data := congrArg String.data h
  simp at hm
  cases v with
  | mk data =>
    have hd2 : data = [] := by simpa using hm
    subst hd2
    rfl

/-- Candidates rejected by the code's truthiness/token guard would not
qualify under the specification's rule either: they do not parse to a
positive number. -/
theorem specQuantityOfCandidate_none_of_token (v : String)
    (h : v = "" ∨ pyLower v ∈ (["nan", "none", "", "0"] : List String)) :
    specQuantityOfCandidate v = none := by
  have hnone : pyFloat? v = none → specQuantityOfCandidate v = none := by
    intro hf
    simp [specQuantityOfCandidate, hf]
  rcases h with h | h
  · subst h
    exact hnone (pyFloat?_none_of_data_nil "" rfl)
  · simp only [List.mem_cons, List.not_mem_nil, or_false] at h
    rcases h with h | h | h | h
    · exact hnone (pyFloat?_none_of_lower_nan v h)
    · exact hnone (pyFloat?_none_of_lower_none v h)
    · have hv := lower_empty_eq v h
      subst hv
      exact hnone (pyFloat?_none_of_data_nil "" rfl)
    · rcases lower_zero_cases v h with rfl | hf
      · have h0 : pyFloat? "0" = some ⟨0, 0⟩ := rfl
        simp [specQuantityOfCandidate, h0, Dec.value]
      · exact hnone hf

/-- The code's candidate loop returns exactly the first candidate that
qualifies under the specification's rule. -/
theorem tryQuantityCandidates_eq_findSome (l : List String) :
    CorrectedSchemaUploader.tryQuantityCandidates l = l.findSome? specQuantityOfCandidate := by
  induction l with
  | nil => rfl
  | cons v rest ih =>
    unfold CorrectedSchemaUploader.tryQuantityCandidates
    rw [List.findSome?_cons]
    by_cases hg : v ≠ "" ∧ pyLower v ∉ (["nan", "none", "", "0"] : List String)
    · cases hf : pyFloat? v with
      | none =>
        have hsq : specQuantityOfCandidate v = none := by
          simp [specQuantityOfCandidate, hf]
        simp only [if_pos hg, hf, hsq, ih]
      | some d =>
        by_cases hp : d.isPos = true
        · have hv : 0 < d.value := (Dec.isPos_iff d).mp hp
          have hsq : specQuantityOfCandidate v = some (max 1 ⌊d.value⌋) := by
            simp [specQuantityOfCandidate, hf, hv]
          have hnum : (0 : Int) ≤ d.num := by
            simp only [Dec.isPos, decide_eq_true_eq] at hp
            omega
          simp only [if_pos hg, hf, if_pos hp, hsq, pyTrunc_eq_floor d hnum]
        · have hsq : specQuantityOfCandidate v = none := by
            have hnv : ¬ 0 < d.value := fun hv => hp ((Dec.isPos_iff d).mpr hv)
            simp [specQuantityOfCandidate, hf, hnv]
          simp only [if_pos hg, hf, if_neg hp, hsq, ih]
    · have hsq : specQuantityOfCandidate v = none := by
        apply specQuantityOfCandidate_none_of_token
        push_neg at hg
        by_cases hv : v = ""
        · exact Or.inl hv
        · exact Or.inr (hg hv)
      simp only [if_neg hg, hsq, ih]

/-- C7: quantity extraction tries the fixed ordered candidate list and
returns, for the first candidate parsing to a number strictly greater than
zero, its floor with a minimum of 1, and the default `1000` when no
candidate qualifies; in particular candidates `["0", "", "12.5"]` yield 12
and all-empty/zero candidates yield the default. -/
theorem c7_quantity_extraction :
    (∀ record : StrRecord, CorrectedSchemaUploader.extract_quantity record
        = ((specQuantityCandidates record).findSome? specQuantityOfCandidate).getD 1000)
    ∧ CorrectedSchemaUploader.extract_quantity
        [("REN_OPRO", "0"), ("CARGA_OPRO", ""), ("CANT_LIQ", "12.5")] = 12
    ∧ CorrectedSchemaUploader.extract_quantity
        [("REN_OPRO", "0"), ("CARGA_OPRO", "0"), ("CANT_LIQ", "")] = 1000 := by
  refine ⟨?_, by decide, by decide⟩
  intro record
  simp only [CorrectedSchemaUploader.extract_quantity, specQuantityCandidates]
  rw [tryQuantityCandidates_eq_findSome]

/-! ## Claim C1 -/

/-- The accumulating digit parse succeeds on all-digit input. -/
theorem natOfDigitsAux_isSome :
    ∀ (cs : List Char) (acc : Nat), (∀ c ∈ cs, isAsciiDigit c = true) →
      ∃ n, natOfDigitsAux cs acc = some n := by
  intro cs
  induction cs with
  | nil => intro acc _; exact ⟨acc, rfl⟩
  | cons a t ih =>
    intro acc hall
    have ha := hall a (by simp)
    simp only [natOfDigitsAux, digitVal?, if_pos ha]
    exact ih _ (fun c hc => hall c (by simp [hc]))

/-- A string passing Python's `isdigit` test parses as a nonnegative
integer. -/
theorem pyIsdigit_pyInt (s : String) (h : pyIsdigit s = true) :
    ∃ n : Nat, pyInt? s = some (n : Int) := by
  simp only [pyIsdigit, Bool.and_eq_true, Bool.not_eq_eq_eq_not, Bool.not_false] at h
  obtain ⟨hne, hall⟩ := h
  cases hdl : s.data with
  | nil => rw [hdl] at hne; simp at hne
  | cons c cs =>
    rw [hdl] at hall
    simp only [List.all_eq_true] at hall
    have hc := hall c (by simp)
    have hplus : c ≠ '+' := by
      intro he
      subst he
      simp [isAsciiDigit] at hc
    have hminus : c ≠ '-' := by
      intro he
      subst he
      simp [isAsciiDigit] at hc
    simp only [pyInt?, hdl, if_neg hplus, if_neg hminus]
    obtain ⟨n, hn⟩ := natOfDigitsAux_isSome (c :: cs) 0
      (fun d hd => hall d hd)
    exact ⟨n, by simp [natOfDigits?, hn]⟩

/-- One iteration of the selection loop appends exactly the record the
specification classifies as changed (if any) and raises the running mark
to its sequence value. -/
theorem select_step_eq (today : String) (last : Int)
    (acc : List (Int × List (String × PyVal)) × Int) (record : RawRecord) :
    FlaskDbfUploader.select_step today last acc record
      = match specChangedRecord today last record with
        | some p => (acc.1 ++ [p], max acc.2 p.1)
        | none => acc := by
  unfold FlaskDbfUploader.select_step specChangedRecord
  set no_ordp := FlaskDbfUploader.clean_value (getRaw record "NO_ORDP" (some "0")) with hno
  by_cases hdig : pyIsdigit no_ordp = true
  · have hne : no_ordp ≠ "" := by
      intro he
      rw [he] at hdig
      simp [pyIsdigit] at hdig
    obtain ⟨n, hn⟩ := pyIsdigit_pyInt no_ordp hdig
    rw [if_neg (by simp [hne, hdig])]
    have hin : FlaskDbfUploader.is_new_record last no_ordp = decide (last < (n : Int)) := by
      simp [FlaskDbfUploader.is_new_record, hn]
    by_cases hlt : last < (n : Int)
    · rw [if_pos (by simp [hin, hlt])]
      cases hm : FlaskDbfUploader.map_ordprod_record_to_inventory_code today record with
      | some m =>
        simp only [hm, hn, Option.getD_some, Option.map_some']
        rw [if_pos (⟨hdig, hlt⟩ : pyIsdigit no_ordp = true ∧ last < (n : Int))]
        have hmax : (if (n : Int) > acc.2 then (n : Int) else acc.2) = max acc.2 (n : Int) := by
          split_ifs <;> omega
        rw [hmax]
      | none =>
        simp [hm, hn, hdig, hlt]
    · rw [if_neg (by simp [hin, hlt])]
      have : ¬ (pyIsdigit no_ordp = true ∧ last < (pyInt? no_ordp).getD 0) := by
        rw [hn]
        simp [hlt]
      rw [if_neg this]
  · rw [if_pos (by simp [hdig])]
    have : ¬ (pyIsdigit no_ordp = true ∧ last < (pyInt? no_ordp).getD 0) := by
      simp [hdig]
    rw [if_neg this]

/-- The selection fold collects exactly the records the specification
classifies as changed, in file order, and its mark is the running maximum
of their sequence values. -/
theorem collect_general (today : String) (last : Int) :
    ∀ (records : List RawRecord) (acc : List (Int × List (String × PyVal)) × Int),
      records.foldl (FlaskDbfUploader.select_step today last) acc
        = (acc.1 ++ records.filterMap (specChangedRecord today last),
           ((records.filterMap (specChangedRecord today last)).map Prod.fst).foldl max acc.2) := by
  intro records
  induction records with
  | nil => intro acc; simp
  | cons r rs ih =>
    intro acc
    rw [List.foldl_cons, select_step_eq]
    cases hs : specChangedRecord today last r with
    | none =>
      rw [List.filterMap_cons_none hs]
      exact ih acc
    | some p =>
      simp only [List.foldl_cons, select_step_eq, hs]
      rw [ih, List.filterMap_cons_some hs]
      simp [List.append_assoc]

/-- Folding `max` never goes below the start value. -/
theorem le_foldl_max (l : List Int) : ∀ b : Int, b ≤ l.foldl max b := by
  induction l with
  | nil => intro b; exact le_refl b
  | cons x t ih => intro b; exact le_trans (le_max_left b x) (ih (max b x))

/-- C1: under the monotonic-sequence strategy a record is selected iff its
integer-valued sequence field is strictly greater than the stored mark `H`
(and it maps successfully); after classification the mark is the maximum of
`H` and the selected sequence values — so it never decreases, and equals
the maximum sequence value observed among changed records whenever there
are any; the delivery order (after the sort feeding the batch loop) is
ascending in the sequence value and is a permutation of the selection; and
on the specification's example — records 5, 7, 3 against the mark 4 —
exactly the records 5 and 7 are delivered, in that order, and the
resulting mark is 7. -/
theorem c1_monotonic_sequence_strategy :
    (∀ (today : String) (last : Int) (records : List RawRecord),
      (FlaskDbfUploader.collect_new_records today last records).1
        = records.filterMap (specChangedRecord today last))
    ∧ (∀ (today : String) (last : Int) (records : List RawRecord),
      (FlaskDbfUploader.collect_new_records today last records).2
        = ((FlaskDbfUploader.collect_new_records today last records).1.map Prod.fst).foldl
            max last)
    ∧ (∀ (today : String) (last : Int) (records : List RawRecord),
      last ≤ (FlaskDbfUploader.collect_new_records today last records).2)
    ∧ (∀ (today : String) (last : Int) (records : List RawRecord),
      List.Sorted (· ≤ ·)
        ((FlaskDbfUploader.sort_new_records
          (FlaskDbfUploader.collect_new_records today last records).1).map Prod.fst))
    ∧ (∀ (today : String) (last : Int) (records : List RawRecord),
      List.Perm
        (FlaskDbfUploader.sort_new_records
          (FlaskDbfUploader.collect_new_records today last records).1)
        (FlaskDbfUploader.collect_new_records today last records).1)
    ∧ (FlaskDbfUploader.collect_new_records "2025-01-01" 4 c1records).1.map Prod.fst = [5, 7]
    ∧ (FlaskDbfUploader.collect_new_records "2025-01-01" 4 c1records).2 = 7
    ∧ ((FlaskDbfUploader.sort_new_records
          (FlaskDbfUploader.collect_new_records "2025-01-01" 4 c1records).1).map Prod.fst
        = [5, 7]) := by
  have h1 : ∀ (today : String) (last : Int) (records : List RawRecord),
      (FlaskDbfUploader.collect_new_records today last records).1
        = records.filterMap (specChangedRecord today last) := by
    intro today last records
    unfold FlaskDbfUploader.collect_new_records
    rw [collect_general]
    simp
  have h2 : ∀ (today : String) (last : Int) (records : List RawRecord),
      (FlaskDbfUploader.collect_new_records today last records).2
        = ((FlaskDbfUploader.collect_new_records today last records).1.map Prod.fst).foldl
            max last := by
    intro today last records
    conv_lhs => rw [FlaskDbfUploader.collect_new_records, collect_general]
    rw [h1]
  have hsorted : ∀ (l : List (Int × List (String × PyVal))),
      (FlaskDbfUploader.sort_new_records l).Pairwise
        (fun a b => (fun a b : Int × List (String × PyVal) => decide (a.1 ≤ b.1)) a b = true) := by
    intro l
    unfold FlaskDbfUploader.sort_new_records
    exact List.sorted_mergeSort
      (fun a b c hab hbc => by
        simp only [decide_eq_true_eq] at hab hbc ⊢
        omega)
      (fun a b => by
        simp only [Bool.or_eq_true, decide_eq_true_eq]
        omega)
      l
  refine ⟨h1, h2, ?_, ?_, ?_, ?_, ?_, ?_⟩
  · intro today last records
    rw [h2]
    exact le_foldl_max _ last
  · intro today last records
    have hp := hsorted (FlaskDbfUploader.collect_new_records today last records).1
    rw [List.Sorted, List.pairwise_map]
    exact hp.imp (fun h => by simpa using h)
  · intro today last records
    unfold FlaskDbfUploader.sort_new_records
    exact List.mergeSort_perm _ _
  · decide
  · decide
  · have h6 : (FlaskDbfUploader.collect_new_records "2025-01-01" 4 c1records).1.map Prod.fst
        = [5, 7] := by decide
    have hpw : ((FlaskDbfUploader.collect_new_records "2025-01-01" 4 c1records).1.map
        Prod.fst).Pairwise (· ≤ ·) := by
      rw [h6]
      decide
    rw [List.pairwise_map] at hpw
    unfold FlaskDbfUploader.sort_new_records
    rw [List.mergeSort_of_sorted (hpw.imp (fun h => by simpa using h)), h6]
